import Mathlib

/-!
Verification of the oz access-request reconciliation engine.

This file gives a shallow embedding of the reconciliation code in
`internal/controllers/base_request_controller.go`, the exec-access builder in
`internal/builders/execaccessbuilder/types.go`, and the CLI wait loop of the
`create ExecAccessRequest` command, and proves the spec's claims about them.

Durations are modelled as `Int` nanoseconds (Go's `time.Duration` is an int64
nanosecond count; no arithmetic here can overflow, only comparisons are done).
Status-subresource writes are modelled as always succeeding; API write
failures only propagate errors and are not the subject of any claim.
-/

set_option autoImplicit false

namespace Oz

/-- Condition status, mirroring `metav1.ConditionStatus` (True/False/Unknown). -/
inductive ConditionStatus where
  | ctrue
  | cfalse
  | cunknown
  deriving DecidableEq, Repr

/-- The four condition types recognized on a Request (spec section 3). -/
inductive ConditionType where
  | durationsValid
  | accessStillValid
  | resourcesCreated
  | resourcesReady
  deriving DecidableEq, Repr

/-- A typed status condition `{type, status, reason, message}` on a Request.
`lastTransitionTime` is not modelled; no claim concerns it. -/
structure Condition where
  type : ConditionType
  status : ConditionStatus
  reason : String
  message : String
  deriving DecidableEq, Repr

/-- Embeds `meta.FindStatusCondition`: first condition in the list with the
given type, or none. -/
def findStatusCondition : List Condition → ConditionType → Option Condition
  | [], _ => none
  | d :: ds, t => if d.type = t then some d else findStatusCondition ds t

/-- Embeds `meta.SetStatusCondition`: replace the first condition of the same
type, or append if no condition of that type exists. -/
def setStatusCondition : List Condition → Condition → List Condition
  | [], c => [c]
  | d :: ds, c => if d.type = c.type then c :: ds else d :: setStatusCondition ds c

/-! ## Go duration rendering

`verifyDuration` builds its human-readable reason strings with
`time.Duration.String()`.  `goDurationString` is a faithful model of that Go
standard-library routine (time/format.go): largest unit is hours; durations
under one second use ns/µs/ms; zero renders as "0s". -/

/-- The decimal digit character for `n % 10`. -/
def digitChar (n : Nat) : Char := Char.ofNat (48 + n % 10)

/-- Models Go's `fmtFrac`: pop `prec` low decimal digits of `v`, omitting
trailing zeros, returning the fraction text (with its leading dot, or empty)
and the remaining value. Digits are consumed least significant first. -/
def fmtFracAux : Nat → Nat → Bool → String → String × Nat
  | v, 0, pr, acc => (if pr then "." ++ acc else acc, v)
  | v, p + 1, pr, acc =>
    let digit := v % 10
    let pr2 := pr || decide (digit ≠ 0)
    let acc2 := if pr2 then String.singleton (digitChar digit) ++ acc else acc
    fmtFracAux (v / 10) p pr2 acc2

/-- Models Go's `time.Duration.String()` on a nanosecond count. -/
def goDurationString (d : Int) : String :=
  let u := d.natAbs
  let core :=
    if u < 1000000000 then
      -- Less than one second: smaller units, no fraction carried upward.
      if u = 0 then "0s"
      else if u < 1000 then toString u ++ "ns"
      else if u < 1000000 then
        let fr := fmtFracAux u 3 false ""
        toString fr.2 ++ fr.1 ++ "µs"
      else
        let fr := fmtFracAux u 6 false ""
        toString fr.2 ++ fr.1 ++ "ms"
    else
      -- At least one second: seconds with fraction, then minutes, then hours.
      let fr := fmtFracAux u 9 false ""
      let s1 := toString (fr.2 % 60) ++ fr.1 ++ "s"
      let v1 := fr.2 / 60
      if v1 = 0 then s1
      else
        let s2 := toString (v1 % 60) ++ "m" ++ s1
        let v2 := v1 / 60
        if v2 = 0 then s2 else toString v2 ++ "h" ++ s2
  if d < 0 then "-" ++ core else core

/-! ## Substring search (used to state claims about reason vocabulary) -/

/-- Whether the character list `n` is an initial segment of `h`. -/
def startsWithChars : List Char → List Char → Bool
  | _, [] => true
  | [], _ :: _ => false
  | a :: as, b :: bs => decide (a = b) && startsWithChars as bs

/-- Whether `n` occurs as a contiguous subsequence of `h`. -/
def hasSubSeq : List Char → List Char → Bool
  | [], n => n.isEmpty
  | h :: t, n => startsWithChars (h :: t) n || hasSubSeq t n

/-- Whether `needle` occurs as a substring of `hay`. -/
def strContains (hay needle : String) : Bool :=
  hasSubSeq hay.data needle.data

/-! ## Status condition helpers

Modelled from the spec: the `internal/controllers/internal/status` helper
package is not among the analyzed sources; per spec sections 3 and 4 each
helper writes one condition with the human-readable string produced by the
caller. The string is stored in both `reason` and `message`. -/

/-- Build a condition whose reason and message are the given string. -/
def mkCond (t : ConditionType) (s : ConditionStatus) (msg : String) : Condition :=
  { type := t, status := s, reason := msg, message := msg }

/-- Modelled from the spec: `status.SetRequestDurationsNotValid` sets
`DurationsValid=False` with the caller's offending-field message. -/
def SetRequestDurationsNotValid (conds : List Condition) (msg : String) : List Condition :=
  setStatusCondition conds (mkCond ConditionType.durationsValid ConditionStatus.cfalse msg)

/-- Modelled from the spec: `status.SetRequestDurationsValid` sets
`DurationsValid=True` with the caller's chosen-branch reason. -/
def SetRequestDurationsValid (conds : List Condition) (reasonStr : String) : List Condition :=
  setStatusCondition conds (mkCond ConditionType.durationsValid ConditionStatus.ctrue reasonStr)

/-- Modelled from the spec: `status.SetAccessNotValid` sets
`AccessStillValid=False` with reason "expired" (spec section 4.2). -/
def SetAccessNotValid (conds : List Condition) : List Condition :=
  setStatusCondition conds (mkCond ConditionType.accessStillValid ConditionStatus.cfalse "expired")

/-- Modelled from the spec: `status.SetAccessStillValid` sets
`AccessStillValid=True` (spec section 4.2). -/
def SetAccessStillValid (conds : List Condition) : List Condition :=
  setStatusCondition conds
    (mkCond ConditionType.accessStillValid ConditionStatus.ctrue "Access still valid")

/-- Modelled from the spec: `status.SetAccessResourcesNotCreated` sets
`ResourcesCreated=False` with the builder's error text. -/
def SetAccessResourcesNotCreated (conds : List Condition) (errMsg : String) : List Condition :=
  setStatusCondition conds (mkCond ConditionType.resourcesCreated ConditionStatus.cfalse errMsg)

/-- Modelled from the spec: `status.SetAccessResourcesCreated` sets
`ResourcesCreated=True` with the builder's status message. -/
def SetAccessResourcesCreated (conds : List Condition) (msg : String) : List Condition :=
  setStatusCondition conds (mkCond ConditionType.resourcesCreated ConditionStatus.ctrue msg)

/-! ## Duration policy resolution (`verifyDuration`) -/

/-- The duration chosen by `verifyDuration`'s if/else-if/else chain:
template default when no requested duration; the requested duration when it
is at most the template maximum; the template maximum otherwise. -/
def resolvedDuration (requested dflt mx : Int) : Int :=
  if requested = 0 then dflt
  else if requested ≤ mx then requested
  else mx

/-- The `reasonStr` built by `verifyDuration` in the matching branch. -/
def durationReason (requested dflt mx : Int) : String :=
  if requested = 0 then
    "Access request duration defaulting to template duration time (" ++
      goDurationString dflt ++ ")"
  else if requested ≤ mx then
    "Access requested custom duration (" ++ goDurationString requested ++ ")"
  else
    "Access requested duration (" ++ goDurationString requested ++
      ") larger than template maximum duration (" ++ goDurationString mx ++ ")"

/-- Embeds `BaseRequestReconciler.verifyDuration`. Inputs are the parse
results of `spec.duration`, the template's `spec.defaultDuration` and
`spec.maxDuration` (each either a nanosecond count or a parse-error text),
the request's uptime (`GetUptime()`), and the request's current conditions.
Returns the updated condition list and the error the function returns. -/
def verifyDuration (reqDur defDur maxDur : Except String Int) (uptime : Int)
    (conds : List Condition) : List Condition × Option String :=
  match reqDur with
  | Except.error e => (SetRequestDurationsNotValid conds ("spec.duration error: " ++ e), some e)
  | Except.ok requestedDuration =>
    match defDur with
    | Except.error e =>
      (SetRequestDurationsNotValid conds ("Template Error, spec.defaultDuration error: " ++ e),
        some e)
    | Except.ok templateDefaultDuration =>
      match maxDur with
      | Except.error e =>
        (SetRequestDurationsNotValid conds ("Template Error, spec.maxDuration error: " ++ e),
          some e)
      | Except.ok templateMaxDuration =>
        let accessDuration :=
          resolvedDuration requestedDuration templateDefaultDuration templateMaxDuration
        let reasonStr :=
          durationReason requestedDuration templateDefaultDuration templateMaxDuration
        let conds1 := SetRequestDurationsValid conds reasonStr
        if uptime > accessDuration then
          (SetAccessNotValid conds1, none)
        else
          (SetAccessStillValid conds1, none)

/-! ## Expiration check (`isAccessExpired`) -/

/-- Outcome of `isAccessExpired`: the boolean it returns, and whether it
invoked `DeleteResource` on the request. -/
structure ExpiryResult where
  expired : Bool
  deleted : Bool
  deriving DecidableEq, Repr

/-- Embeds `BaseRequestReconciler.isAccessExpired`: looks up the
`AccessStillValid` condition; a missing condition skips deletion; a False
condition deletes the request and reports expiry; anything else is left
alone. -/
def isAccessExpired (conds : List Condition) : ExpiryResult :=
  match findStatusCondition conds ConditionType.accessStillValid with
  | none => { expired := false, deleted := false }
  | some cond =>
    if cond.status = ConditionStatus.cfalse then { expired := true, deleted := true }
    else { expired := false, deleted := false }

/-! ## Builder provisioning (`ExecAccessBuilder.CreateAccessResources`) -/

/-- One RBAC policy rule, as in `rbacv1.PolicyRule`. -/
structure PolicyRule where
  apiGroups : List String
  resources : List String
  resourceNames : List String
  verbs : List String
  deriving DecidableEq, Repr

/-- The `rules` literal of `CreateAccessResources`: read access to the one
target pod, and exec-session management on that same pod. -/
def execAccessRules (targetPodName : String) : List PolicyRule :=
  [ { apiGroups := [""],
      resources := ["pods"],
      resourceNames := [targetPodName],
      verbs := ["get", "list", "watch"] },
    { apiGroups := [""],
      resources := ["pods/exec"],
      resourceNames := [targetPodName],
      verbs := ["create", "update", "delete", "get", "list"] } ]

/-- Modelled from the spec: permission objects are deterministically named
from the owning request's identity (spec section 5); the naming helper
`utils.CreateRole` is not among the analyzed sources. -/
def roleName (reqName : String) : String := reqName

/-- Modelled from the spec: deterministic binding name from the request's
identity; `utils.CreateRoleBinding` is not among the analyzed sources. -/
def roleBindingName (reqName : String) : String := reqName

/-- The request-status fields `CreateAccessResources` touches. -/
structure ExecState where
  podName : String
  accessMessage : String
  deriving DecidableEq, Repr

/-- Result of one `CreateAccessResources` invocation: the request status it
leaves behind, the policy rules of the role it created (empty when none was
created), and the `(statusString, err)` pair it returns. -/
structure CreateResult where
  state : ExecState
  createdRules : List PolicyRule
  statusString : String
  error : Option String
  deriving DecidableEq, Repr

/-- Embeds `ExecAccessBuilder.CreateAccessResources`. `getPodResult` is the
outcome of the target-selection collaborator `internal.GetPod` (error, no
pod, or a pod name); `accessCmdResult` is the outcome of rendering the
template's access command. API writes are modelled as succeeding. -/
def CreateAccessResources (reqName : String) (getPodResult : Except String (Option String))
    (accessCmdResult : Except String String) (st : ExecState) : CreateResult :=
  -- An already-assigned pod is respected no matter what; nothing is mutated.
  if st.podName ≠ "" then
    { state := st, createdRules := [],
      statusString := "Pod already assigned -" ++ reqName, error := none }
  else
    match getPodResult with
    | Except.error _ =>
      { state := st, createdRules := [], statusString := "",
        error := some ("targetPod not found " ++ reqName) }
    | Except.ok none =>
      { state := st, createdRules := [], statusString := "",
        error := some ("targetPod not found " ++ reqName) }
    | Except.ok (some targetPodName) =>
      let rules := execAccessRules targetPodName
      let role := roleName reqName
      let rb := roleBindingName reqName
      match accessCmdResult with
      | Except.error e =>
        { state := st, createdRules := rules, statusString := "", error := some e }
      | Except.ok accessString =>
        let st1 := { st with accessMessage := accessString }
        -- SetPodName fails only when Status.PodName is already set; it is
        -- empty on this path, so it succeeds.
        let st2 := { st1 with podName := targetPodName }
        { state := st2, createdRules := rules,
          statusString := "Success. Role " ++ role ++ ", RoleBinding " ++ rb ++ " created",
          error := none }

/-- Embeds `BaseRequestReconciler.verifyAccessResourcesBuilt`: run the
builder (its outcome is `buildResult`), then record `ResourcesCreated`
accordingly, propagating the builder's error. -/
def verifyAccessResourcesBuilt (conds : List Condition)
    (buildResult : Except String String) : List Condition × Option String :=
  match buildResult with
  | Except.error e => (SetAccessResourcesNotCreated conds e, some e)
  | Except.ok s => (SetAccessResourcesCreated conds s, none)

/-! ## One reconciliation pass -/

/-- Outcome of one reconciliation pass: resulting conditions, whether the
request got deleted, and the error (if any) that aborted the pass. -/
structure PassResult where
  conditions : List Condition
  deleted : Bool
  error : Option String
  deriving DecidableEq, Repr

/-- Modelled from the spec: the per-pass pipeline of the Reconciliation
Engine (spec section 4.4) — the concrete `Reconcile` method is not among the
analyzed sources. Step 2 is the Expiration Guard pre-check
(`isAccessExpired`); step 3 runs `verifyDuration` (which also performs the
step-4 age comparison and writes `AccessStillValid`); step 4 re-runs the
Expiration Guard on the fresh conditions; step 5 provisions through
`verifyAccessResourcesBuilt`. -/
def reconcilePass (reqDur defDur maxDur : Except String Int) (uptime : Int)
    (buildResult : Except String String) (conds : List Condition) : PassResult :=
  let pre := isAccessExpired conds
  if pre.expired then { conditions := conds, deleted := true, error := none }
  else
    let r := verifyDuration reqDur defDur maxDur uptime conds
    match r.2 with
    | some e => { conditions := r.1, deleted := false, error := some e }
    | none =>
      let post := isAccessExpired r.1
      if post.expired then { conditions := r.1, deleted := true, error := none }
      else
        let b := verifyAccessResourcesBuilt r.1 buildResult
        { conditions := b.1, deleted := false, error := b.2 }

/-- Decidable statement that the `AccessStillValid` condition, when present,
is not False (so the Expiration Guard safety net has not been armed). -/
def accessCondNotFalse (conds : List Condition) : Bool :=
  match findStatusCondition conds ConditionType.accessStillValid with
  | none => true
  | some c => decide (c.status ≠ ConditionStatus.cfalse)

/-! ## CLI wait loop (`createExecAccessRequestCmd`) -/

/-- One observable action of the CLI's wait loop. -/
inductive CliEvent where
  | printLine (s : String)
  | printDot
  | sleepSeconds (n : Nat)
  | exitNonZero (code : Nat)
  deriving DecidableEq, Repr

/-- How the wait loop ended: readiness, the timeout branch, or the trace of
supplied observations ran out with the loop still running. -/
inductive WaitOutcome where
  | success
  | timedOut
  | stillRunning
  deriving DecidableEq, Repr

/-- What one loop iteration observes: the `Get` refetch outcome, whether
`req.IsReady()` holds, whether the wait context's deadline has elapsed
(`waitCtx.Err() != nil`), and the request's current conditions. -/
structure PollObservation where
  getError : Option String
  ready : Bool
  timedOut : Bool
  conditions : List Condition
  deriving Repr

/-- The spec's condition-type names, as printed by the CLI. -/
def condTypeString : ConditionType → String
  | ConditionType.durationsValid => "DurationsValid"
  | ConditionType.accessStillValid => "AccessStillValid"
  | ConditionType.resourcesCreated => "ResourcesCreated"
  | ConditionType.resourcesReady => "ResourcesReady"

/-- `metav1.ConditionStatus` values as printed by the CLI. -/
def condStatusString : ConditionStatus → String
  | ConditionStatus.ctrue => "True"
  | ConditionStatus.cfalse => "False"
  | ConditionStatus.cunknown => "Unknown"

/-- The per-condition line of the CLI's timeout output. -/
def condLine (c : Condition) : String :=
  "Condition " ++ condTypeString c.type ++ ", State: " ++ condStatusString c.status ++
    ", Reason: " ++ c.reason ++ ", Message: " ++ c.message

/-- Embeds the wait loop of `createExecAccessRequestCmd.Run`: per iteration,
refetch (an error logs and retries immediately); if ready, announce success
and stop; if the deadline elapsed, print every condition and exit non-zero;
otherwise print a progress dot and sleep one second before the next poll. -/
def waitLoop : List PollObservation → List CliEvent × WaitOutcome
  | [] => ([], WaitOutcome.stillRunning)
  | o :: rest =>
    match o.getError with
    | some e =>
      let r := waitLoop rest
      (CliEvent.printLine ("Error updating request status: " ++ e) :: r.1, r.2)
    | none =>
      if o.ready then
        ([CliEvent.printLine "Success, your access request is ready!"], WaitOutcome.success)
      else if o.timedOut then
        (CliEvent.printLine "Error - timed out waiting for ExecAccessRequest to be ready" ::
          (o.conditions.map fun c => CliEvent.printLine (condLine c)) ++
            [CliEvent.exitNonZero 1],
          WaitOutcome.timedOut)
      else
        let r := waitLoop rest
        (CliEvent.printDot :: CliEvent.sleepSeconds 1 :: r.1, r.2)

/-! ## Lemmas about condition lookup and update -/

theorem find_set_same (conds : List Condition) (c : Condition) :
    findStatusCondition (setStatusCondition conds c) c.type = some c := by
  induction conds with
  | nil => simp [setStatusCondition, findStatusCondition]
  | cons d ds ih =>
    by_cases h : d.type = c.type
    · simp [setStatusCondition, findStatusCondition, h]
    · simp [setStatusCondition, findStatusCondition, h, ih]

theorem find_set_same' (conds : List Condition) (c : Condition) (t : ConditionType)
    (h : c.type = t) : findStatusCondition (setStatusCondition conds c) t = some c := by
  subst h
  exact find_set_same conds c

theorem find_set_other (conds : List Condition) (c : Condition) (t : ConditionType)
    (h : t ≠ c.type) :
    findStatusCondition (setStatusCondition conds c) t = findStatusCondition conds t := by
  induction conds with
  | nil => simp [setStatusCondition, findStatusCondition, Ne.symm h]
  | cons d ds ih =>
    simp only [setStatusCondition]
    by_cases hd : d.type = c.type
    · rw [if_pos hd]
      have h1 : ¬ c.type = t := fun hh => h hh.symm
      have h2 : ¬ d.type = t := by rw [hd]; exact h1
      simp [findStatusCondition, h1, h2]
    · rw [if_neg hd]
      simp only [findStatusCondition]
      by_cases ht : d.type = t
      · rw [if_pos ht, if_pos ht]
      · rw [if_neg ht, if_neg ht]
        exact ih

theorem isAccessExpired_of_notFalse (conds : List Condition)
    (h : accessCondNotFalse conds = true) :
    isAccessExpired conds = { expired := false, deleted := false } := by
  unfold accessCondNotFalse at h
  unfold isAccessExpired
  cases hf : findStatusCondition conds ConditionType.accessStillValid with
  | none => rfl
  | some c =>
    rw [hf] at h
    simp only [decide_eq_true_eq] at h
    simp [h]

theorem verifyDuration_ok_eq (d dflt mx uptime : Int) (conds : List Condition) :
    verifyDuration (Except.ok d) (Except.ok dflt) (Except.ok mx) uptime conds =
      (if uptime > resolvedDuration d dflt mx then
        SetAccessNotValid (SetRequestDurationsValid conds (durationReason d dflt mx))
      else
        SetAccessStillValid (SetRequestDurationsValid conds (durationReason d dflt mx)),
      none) := by
  by_cases h : uptime > resolvedDuration d dflt mx <;> simp [verifyDuration, h]

/-! ## Substring lemmas -/

theorem hasSubSeq_nil (l : List Char) : hasSubSeq l [] = true := by
  cases l <;> simp [hasSubSeq, startsWithChars]

theorem startsWithChars_append (n xs ys : List Char) (h : startsWithChars xs n = true) :
    startsWithChars (xs ++ ys) n = true := by
  induction n generalizing xs with
  | nil => simp [startsWithChars]
  | cons b bs ih =>
    cases xs with
    | nil => simp [startsWithChars] at h
    | cons a as =>
      simp only [startsWithChars, Bool.and_eq_true, decide_eq_true_eq] at h
      simp only [List.cons_append, startsWithChars, Bool.and_eq_true, decide_eq_true_eq]
      exact ⟨h.1, ih as h.2⟩

theorem hasSubSeq_append_left (l1 l2 n : List Char) (h : hasSubSeq l1 n = true) :
    hasSubSeq (l1 ++ l2) n = true := by
  induction l1 with
  | nil =>
    simp only [hasSubSeq, List.isEmpty_iff] at h
    subst h
    exact hasSubSeq_nil l2
  | cons a as ih =>
    simp only [hasSubSeq, Bool.or_eq_true] at h
    rcases h with h | h
    · simp only [List.cons_append, hasSubSeq, Bool.or_eq_true]
      exact Or.inl (startsWithChars_append n (a :: as) l2 h)
    · simp only [List.cons_append, hasSubSeq, Bool.or_eq_true]
      exact Or.inr (ih h)

theorem strContains_append_left (s t n : String) (h : strContains s n = true) :
    strContains (s ++ t) n = true := by
  unfold strContains at h ⊢
  rw [String.data_append]
  exact hasSubSeq_append_left s.data t.data n.data h

/-! ## Claim theorems -/

theorem find_durationsValid_verifyDuration (d dflt mx uptime : Int) (conds : List Condition) :
    findStatusCondition
      (verifyDuration (Except.ok d) (Except.ok dflt) (Except.ok mx) uptime conds).1
      ConditionType.durationsValid =
      some (mkCond ConditionType.durationsValid ConditionStatus.ctrue
        (durationReason d dflt mx)) := by
  rw [verifyDuration_ok_eq]
  dsimp only
  by_cases h : uptime > resolvedDuration d dflt mx
  · rw [if_pos h]
    unfold SetAccessNotValid SetRequestDurationsValid
    rw [find_set_other _ _ _ (by decide)]
    exact find_set_same' _ _ _ rfl
  · rw [if_neg h]
    unfold SetAccessStillValid SetRequestDurationsValid
    rw [find_set_other _ _ _ (by decide)]
    exact find_set_same' _ _ _ rfl

/-- C1: with parseable durations, `verifyDuration` resolves the access
duration to the template default when the request's duration is zero, to the
requested duration when it is positive and at most the template maximum, and
to the template maximum when it exceeds the maximum; in each branch the
reason records the chosen branch, and on success `DurationsValid` is set to
True with that reason and no error is returned. -/
theorem verifyDuration_resolves (d dflt mx uptime : Int) (conds : List Condition) :
    (d = 0 → resolvedDuration d dflt mx = dflt ∧
      durationReason d dflt mx =
        "Access request duration defaulting to template duration time (" ++
          goDurationString dflt ++ ")") ∧
    (0 < d → d ≤ mx → resolvedDuration d dflt mx = d ∧
      durationReason d dflt mx =
        "Access requested custom duration (" ++ goDurationString d ++ ")") ∧
    (d ≠ 0 → mx < d → resolvedDuration d dflt mx = mx ∧
      durationReason d dflt mx = "Access requested duration (" ++ goDurationString d ++
        ") larger than template maximum duration (" ++ goDurationString mx ++ ")") ∧
    ((verifyDuration (Except.ok d) (Except.ok dflt) (Except.ok mx) uptime conds).2 = none ∧
      findStatusCondition
        (verifyDuration (Except.ok d) (Except.ok dflt) (Except.ok mx) uptime conds).1
        ConditionType.durationsValid =
        some (mkCond ConditionType.durationsValid ConditionStatus.ctrue
          (durationReason d dflt mx))) := by
  refine ⟨?_, ?_, ?_, ?_, ?_⟩
  · intro h
    simp [resolvedDuration, durationReason, h]
  · intro h1 h2
    simp [resolvedDuration, durationReason, ne_of_gt h1, h2]
  · intro h1 h2
    simp [resolvedDuration, durationReason, h1, not_le.mpr h2]
  · rw [verifyDuration_ok_eq]
  · exact find_durationsValid_verifyDuration d dflt mx uptime conds

/-- C1 witness: at template default 30m and maximum 2h, a zero requested
duration resolves to 30m, a 1h request resolves to 1h, and a 5h request
resolves to 2h. -/
theorem verifyDuration_resolves_witness :
    resolvedDuration 0 1800000000000 7200000000000 = 1800000000000 ∧
    resolvedDuration 3600000000000 1800000000000 7200000000000 = 3600000000000 ∧
    resolvedDuration 18000000000000 1800000000000 7200000000000 = 7200000000000 :=
  ⟨((verifyDuration_resolves 0 1800000000000 7200000000000 0 []).1 rfl).1,
   ((verifyDuration_resolves 3600000000000 1800000000000 7200000000000 0 []).2.1
      (by decide) (by decide)).1,
   ((verifyDuration_resolves 18000000000000 1800000000000 7200000000000 0 []).2.2.1
      (by decide) (by decide)).1⟩

/-- C4: when the `AccessStillValid` condition is present with status False,
`isAccessExpired` deletes the request and returns true; with any other
status it deletes nothing and returns false. -/
theorem isAccessExpired_on_condition (conds : List Condition) (c : Condition)
    (h : findStatusCondition conds ConditionType.accessStillValid = some c) :
    (c.status = ConditionStatus.cfalse →
      isAccessExpired conds = { expired := true, deleted := true }) ∧
    (c.status ≠ ConditionStatus.cfalse →
      isAccessExpired conds = { expired := false, deleted := false }) := by
  constructor <;> intro hs <;> simp [isAccessExpired, h, hs]

/-- C4 witness: a request carrying `AccessStillValid=False` is deleted, and
one carrying `AccessStillValid=True` is left alone. -/
theorem isAccessExpired_on_condition_witness :
    isAccessExpired [mkCond ConditionType.accessStillValid ConditionStatus.cfalse "expired"] =
      { expired := true, deleted := true } ∧
    isAccessExpired [mkCond ConditionType.accessStillValid ConditionStatus.ctrue "ok"] =
      { expired := false, deleted := false } :=
  ⟨(isAccessExpired_on_condition _
      (mkCond ConditionType.accessStillValid ConditionStatus.cfalse "expired")
      (by decide)).1 (by decide),
   (isAccessExpired_on_condition _
      (mkCond ConditionType.accessStillValid ConditionStatus.ctrue "ok")
      (by decide)).2 (by decide)⟩

theorem isAccessExpired_after_notValid (conds : List Condition) :
    isAccessExpired (SetAccessNotValid conds) = { expired := true, deleted := true } := by
  unfold isAccessExpired SetAccessNotValid
  rw [find_set_same' conds
    (mkCond ConditionType.accessStillValid ConditionStatus.cfalse "expired")
    ConditionType.accessStillValid rfl]
  decide

theorem isAccessExpired_after_stillValid (conds : List Condition) :
    isAccessExpired (SetAccessStillValid conds) = { expired := false, deleted := false } := by
  unfold isAccessExpired SetAccessStillValid
  rw [find_set_same' conds
    (mkCond ConditionType.accessStillValid ConditionStatus.ctrue "Access still valid")
    ConditionType.accessStillValid rfl]
  decide

theorem find_accessStillValid_after_built (conds : List Condition)
    (bres : Except String String) :
    findStatusCondition (verifyAccessResourcesBuilt conds bres).1
      ConditionType.accessStillValid =
      findStatusCondition conds ConditionType.accessStillValid := by
  cases bres with
  | error e =>
    simp only [verifyAccessResourcesBuilt, SetAccessResourcesNotCreated]
    exact find_set_other conds (mkCond ConditionType.resourcesCreated ConditionStatus.cfalse e)
      ConditionType.accessStillValid (by intro hh; simp [mkCond] at hh)
  | ok s =>
    simp only [verifyAccessResourcesBuilt, SetAccessResourcesCreated]
    exact find_set_other conds (mkCond ConditionType.resourcesCreated ConditionStatus.ctrue s)
      ConditionType.accessStillValid (by intro hh; simp [mkCond] at hh)

/-- C2: in a pass whose entering `AccessStillValid` condition is not already
False, when the request's age exceeds the freshly resolved duration the pass
sets `AccessStillValid=False` and deletes the request within that same pass;
when the age does not exceed the resolved duration the pass does not delete
the request and sets `AccessStillValid=True` instead. -/
theorem expiration_within_pass (d dflt mx uptime : Int) (conds : List Condition)
    (bres : Except String String) (h0 : accessCondNotFalse conds = true) :
    (uptime > resolvedDuration d dflt mx →
      reconcilePass (Except.ok d) (Except.ok dflt) (Except.ok mx) uptime bres conds =
        { conditions :=
            SetAccessNotValid (SetRequestDurationsValid conds (durationReason d dflt mx)),
          deleted := true, error := none } ∧
      findStatusCondition
        (reconcilePass (Except.ok d) (Except.ok dflt) (Except.ok mx) uptime
          bres conds).conditions ConditionType.accessStillValid =
        some (mkCond ConditionType.accessStillValid ConditionStatus.cfalse "expired")) ∧
    (uptime ≤ resolvedDuration d dflt mx →
      (reconcilePass (Except.ok d) (Except.ok dflt) (Except.ok mx) uptime
        bres conds).deleted = false ∧
      findStatusCondition
        (reconcilePass (Except.ok d) (Except.ok dflt) (Except.ok mx) uptime
          bres conds).conditions ConditionType.accessStillValid =
        some (mkCond ConditionType.accessStillValid ConditionStatus.ctrue
          "Access still valid")) := by
  have hpre := isAccessExpired_of_notFalse conds h0
  constructor
  · intro h
    have hrp : reconcilePass (Except.ok d) (Except.ok dflt) (Except.ok mx) uptime bres conds =
        { conditions :=
            SetAccessNotValid (SetRequestDurationsValid conds (durationReason d dflt mx)),
          deleted := true, error := none } := by
      simp [reconcilePass, hpre, verifyDuration_ok_eq, h, isAccessExpired_after_notValid]
    refine ⟨hrp, ?_⟩
    rw [hrp]
    unfold SetAccessNotValid
    exact find_set_same' _ _ _ rfl
  · intro h
    have hn : ¬ uptime > resolvedDuration d dflt mx := not_lt.mpr h
    have hrp : reconcilePass (Except.ok d) (Except.ok dflt) (Except.ok mx) uptime bres conds =
        { conditions :=
            (verifyAccessResourcesBuilt
              (SetAccessStillValid (SetRequestDurationsValid conds (durationReason d dflt mx)))
              bres).1,
          deleted := false,
          error :=
            (verifyAccessResourcesBuilt
              (SetAccessStillValid (SetRequestDurationsValid conds (durationReason d dflt mx)))
              bres).2 } := by
      simp [reconcilePass, hpre, verifyDuration_ok_eq, hn, isAccessExpired_after_stillValid]
    refine ⟨by rw [hrp], ?_⟩
    rw [hrp]
    dsimp only
    rw [find_accessStillValid_after_built]
    unfold SetAccessStillValid
    exact find_set_same' _ _ _ rfl

/-- C2 witness: template default 30m, maximum 2h, no requested duration. At
age 31m the pass deletes the request after setting `AccessStillValid=False`;
at age 29m the pass does not delete and sets `AccessStillValid=True`. -/
theorem expiration_within_pass_witness :
    ((reconcilePass (Except.ok 0) (Except.ok 1800000000000) (Except.ok 7200000000000)
        1860000000000 (Except.ok "ok") []).deleted = true ∧
      (reconcilePass (Except.ok 0) (Except.ok 1800000000000) (Except.ok 7200000000000)
        1740000000000 (Except.ok "ok") []).deleted = false) :=
  ⟨by rw [((expiration_within_pass 0 1800000000000 7200000000000 1860000000000 []
      (Except.ok "ok") (by decide)).1 (by decide)).1],
   ((expiration_within_pass 0 1800000000000 7200000000000 1740000000000 []
      (Except.ok "ok") (by decide)).2 (by decide)).1⟩

/-- C5: an unparsable duration string (the request's `spec.duration`, the
template's `spec.defaultDuration`, or the template's `spec.maxDuration`)
makes `verifyDuration` set `DurationsValid=False` with a message naming the
offending field and return the parse error; the pass aborts there with that
error and performs no further condition updates. -/
theorem parse_error_aborts_pass (reqDur defDur maxDur : Except String Int)
    (uptime : Int) (conds : List Condition) (bres : Except String String) (e : String)
    (h0 : accessCondNotFalse conds = true) :
    (reqDur = Except.error e →
      reconcilePass reqDur defDur maxDur uptime bres conds =
        { conditions := SetRequestDurationsNotValid conds ("spec.duration error: " ++ e),
          deleted := false, error := some e } ∧
      findStatusCondition (reconcilePass reqDur defDur maxDur uptime bres conds).conditions
        ConditionType.durationsValid =
        some (mkCond ConditionType.durationsValid ConditionStatus.cfalse
          ("spec.duration error: " ++ e))) ∧
    (∀ d, reqDur = Except.ok d → defDur = Except.error e →
      reconcilePass reqDur defDur maxDur uptime bres conds =
        { conditions :=
            SetRequestDurationsNotValid conds ("Template Error, spec.defaultDuration error: " ++ e),
          deleted := false, error := some e } ∧
      findStatusCondition (reconcilePass reqDur defDur maxDur uptime bres conds).conditions
        ConditionType.durationsValid =
        some (mkCond ConditionType.durationsValid ConditionStatus.cfalse
          ("Template Error, spec.defaultDuration error: " ++ e))) ∧
    (∀ d df, reqDur = Except.ok d → defDur = Except.ok df → maxDur = Except.error e →
      reconcilePass reqDur defDur maxDur uptime bres conds =
        { conditions :=
            SetRequestDurationsNotValid conds ("Template Error, spec.maxDuration error: " ++ e),
          deleted := false, error := some e } ∧
      findStatusCondition (reconcilePass reqDur defDur maxDur uptime bres conds).conditions
        ConditionType.durationsValid =
        some (mkCond ConditionType.durationsValid ConditionStatus.cfalse
          ("Template Error, spec.maxDuration error: " ++ e))) := by
  have hpre := isAccessExpired_of_notFalse conds h0
  refine ⟨?_, ?_, ?_⟩
  · intro h
    subst h
    have hrp : reconcilePass (Except.error e) defDur maxDur uptime bres conds =
        { conditions := SetRequestDurationsNotValid conds ("spec.duration error: " ++ e),
          deleted := false, error := some e } := by
      simp [reconcilePass, hpre, verifyDuration]
    refine ⟨hrp, ?_⟩
    rw [hrp]
    unfold SetRequestDurationsNotValid
    exact find_set_same' _ _ _ rfl
  · intro d h1 h2
    subst h1; subst h2
    have hrp : reconcilePass (Except.ok d) (Except.error e) maxDur uptime bres conds =
        { conditions :=
            SetRequestDurationsNotValid conds ("Template Error, spec.defaultDuration error: " ++ e),
          deleted := false, error := some e } := by
      simp [reconcilePass, hpre, verifyDuration]
    refine ⟨hrp, ?_⟩
    rw [hrp]
    unfold SetRequestDurationsNotValid
    exact find_set_same' _ _ _ rfl
  · intro d df h1 h2 h3
    subst h1; subst h2; subst h3
    have hrp : reconcilePass (Except.ok d) (Except.ok df) (Except.error e) uptime bres conds =
        { conditions :=
            SetRequestDurationsNotValid conds ("Template Error, spec.maxDuration error: " ++ e),
          deleted := false, error := some e } := by
      simp [reconcilePass, hpre, verifyDuration]
    refine ⟨hrp, ?_⟩
    rw [hrp]
    unfold SetRequestDurationsNotValid
    exact find_set_same' _ _ _ rfl

/-- C5 witness: a request whose `spec.duration` fails to parse aborts the
pass with that error, recording only the `DurationsValid=False` condition. -/
theorem parse_error_aborts_pass_witness :
    reconcilePass (Except.error "bad duration") (Except.ok 1800000000000)
      (Except.ok 7200000000000) 0 (Except.ok "ok") [] =
      { conditions :=
          [mkCond ConditionType.durationsValid ConditionStatus.cfalse
            "spec.duration error: bad duration"],
        deleted := false, error := some "bad duration" } :=
  ((parse_error_aborts_pass (Except.error "bad duration") (Except.ok 1800000000000)
      (Except.ok 7200000000000) 0 [] (Except.ok "ok") "bad duration" (by decide)).1 rfl).1

/-- C10: a request with no `AccessStillValid` condition at all is skipped by
`isAccessExpired`: it returns false and deletes nothing. -/
theorem isAccessExpired_missing_condition (conds : List Condition)
    (h : findStatusCondition conds ConditionType.accessStillValid = none) :
    isAccessExpired conds = { expired := false, deleted := false } := by
  simp [isAccessExpired, h]

/-- C10 witness: a request with no conditions at all (never yet processed) is
not deleted by the expiration safety net. -/
theorem isAccessExpired_missing_condition_witness :
    isAccessExpired [] = { expired := false, deleted := false } :=
  isAccessExpired_missing_condition [] (by decide)

theorem createdRules_cases (reqName : String) (gp : Except String (Option String))
    (ac : Except String String) (st : ExecState) :
    (CreateAccessResources reqName gp ac st).createdRules = [] ∨
    ∃ pod, gp = Except.ok (some pod) ∧
      (CreateAccessResources reqName gp ac st).createdRules = execAccessRules pod := by
  unfold CreateAccessResources
  by_cases h : st.podName ≠ ""
  · rw [if_pos h]
    exact Or.inl rfl
  · rw [if_neg h]
    cases gp with
    | error e => exact Or.inl rfl
    | ok po =>
      cases po with
      | none => exact Or.inl rfl
      | some pod =>
        cases ac with
        | error e2 => exact Or.inr ⟨pod, rfl, rfl⟩
        | ok s2 => exact Or.inr ⟨pod, rfl, rfl⟩

/-- C3: provisioning is idempotent with respect to the target identity: for
a request whose `Status.PodName` is already non-empty,
`CreateAccessResources` returns success immediately with a message noting
the existing assignment, creates no rules, and leaves the request state — in
particular the assigned identity — completely unchanged; hence any repeated
invocation reports "already assigned" and never changes the identity. -/
theorem createAccessResources_idempotent (reqName : String)
    (gp : Except String (Option String)) (ac : Except String String) (st : ExecState)
    (h : st.podName ≠ "") :
    CreateAccessResources reqName gp ac st =
      { state := st, createdRules := [],
        statusString := "Pod already assigned -" ++ reqName, error := none } ∧
    strContains (CreateAccessResources reqName gp ac st).statusString "already assigned"
      = true ∧
    (CreateAccessResources reqName gp ac st).state.podName = st.podName := by
  have he : CreateAccessResources reqName gp ac st =
      { state := st, createdRules := [],
        statusString := "Pod already assigned -" ++ reqName, error := none } := by
    unfold CreateAccessResources
    rw [if_pos h]
  refine ⟨he, ?_, by rw [he]⟩
  rw [he]
  exact strContains_append_left "Pod already assigned -" reqName "already assigned" (by decide)

/-- C3 witness: a request already assigned to pod-1 is untouched by a second
provisioning invocation, which reports the existing assignment. -/
theorem createAccessResources_idempotent_witness :
    CreateAccessResources "req" (Except.ok (some "other-pod")) (Except.ok "cmd")
      { podName := "pod-1", accessMessage := "m" } =
      { state := { podName := "pod-1", accessMessage := "m" }, createdRules := [],
        statusString := "Pod already assigned -req", error := none } :=
  (createAccessResources_idempotent "req" (Except.ok (some "other-pod")) (Except.ok "cmd")
    { podName := "pod-1", accessMessage := "m" } (by decide)).1

/-- C6: every policy rule created by `CreateAccessResources` carries a
resource-name allow-list of exactly the one resolved target pod's name
(never a wildcard or any other name), and grants only get/list/watch on
pods or the session-management verbs on pods/exec. -/
theorem createAccessResources_least_privilege (reqName : String)
    (gp : Except String (Option String)) (ac : Except String String) (st : ExecState)
    (r : PolicyRule) (hr : r ∈ (CreateAccessResources reqName gp ac st).createdRules) :
    (∃ pod, gp = Except.ok (some pod) ∧ r.resourceNames = [pod]) ∧
    ((r.resources = ["pods"] ∧ r.verbs = ["get", "list", "watch"]) ∨
      (r.resources = ["pods/exec"] ∧
        r.verbs = ["create", "update", "delete", "get", "list"])) := by
  rcases createdRules_cases reqName gp ac st with hc | ⟨pod, hgp, hc⟩
  · rw [hc] at hr
    simp at hr
  · rw [hc] at hr
    simp only [execAccessRules, List.mem_cons, List.mem_singleton,
      List.not_mem_nil, or_false] at hr
    rcases hr with hr | hr <;> subst hr
    · exact ⟨⟨pod, hgp, rfl⟩, Or.inl ⟨rfl, rfl⟩⟩
    · exact ⟨⟨pod, hgp, rfl⟩, Or.inr ⟨rfl, rfl⟩⟩

/-- C6 witness: the pods rule generated for target pod-1 names exactly pod-1
and grants only get/list/watch. -/
theorem createAccessResources_least_privilege_witness :
    (∃ pod, (Except.ok (some "pod-1") : Except String (Option String)) =
        Except.ok (some pod) ∧
      ({ apiGroups := [""], resources := ["pods"], resourceNames := ["pod-1"],
         verbs := ["get", "list", "watch"] } : PolicyRule).resourceNames = [pod]) ∧
    ((({ apiGroups := [""], resources := ["pods"], resourceNames := ["pod-1"],
         verbs := ["get", "list", "watch"] } : PolicyRule).resources = ["pods"] ∧
      ({ apiGroups := [""], resources := ["pods"], resourceNames := ["pod-1"],
         verbs := ["get", "list", "watch"] } : PolicyRule).verbs = ["get", "list", "watch"]) ∨
      (({ apiGroups := [""], resources := ["pods"], resourceNames := ["pod-1"],
          verbs := ["get", "list", "watch"] } : PolicyRule).resources = ["pods/exec"] ∧
       ({ apiGroups := [""], resources := ["pods"], resourceNames := ["pod-1"],
          verbs := ["get", "list", "watch"] } : PolicyRule).verbs =
          ["create", "update", "delete", "get", "list"])) :=
  createAccessResources_least_privilege "req" (Except.ok (some "pod-1")) (Except.ok "cmd")
    { podName := "", accessMessage := "" }
    { apiGroups := [""], resources := ["pods"], resourceNames := ["pod-1"],
      verbs := ["get", "list", "watch"] } (by decide)

/-- C7: when target selection fails (a selection error or no pod found)
`CreateAccessResources` returns a targetPod-not-found error;
`verifyAccessResourcesBuilt` maps a builder error to `ResourcesCreated=False`
and returns that error (aborting the pass), and maps builder success to
`ResourcesCreated=True` carrying the builder's status message. -/
theorem provisioning_error_handling (reqName : String) (st : ExecState)
    (gp : Except String (Option String)) (ac : Except String String)
    (conds : List Condition) (s e : String) :
    (st.podName = "" → (gp = Except.error e ∨ gp = Except.ok none) →
      (CreateAccessResources reqName gp ac st).error =
        some ("targetPod not found " ++ reqName)) ∧
    ((verifyAccessResourcesBuilt conds (Except.error e)).2 = some e ∧
      findStatusCondition (verifyAccessResourcesBuilt conds (Except.error e)).1
        ConditionType.resourcesCreated =
        some (mkCond ConditionType.resourcesCreated ConditionStatus.cfalse e)) ∧
    ((verifyAccessResourcesBuilt conds (Except.ok s)).2 = none ∧
      findStatusCondition (verifyAccessResourcesBuilt conds (Except.ok s)).1
        ConditionType.resourcesCreated =
        some (mkCond ConditionType.resourcesCreated ConditionStatus.ctrue s)) := by
  refine ⟨?_, ⟨rfl, ?_⟩, ⟨rfl, ?_⟩⟩
  · intro h hgp
    unfold CreateAccessResources
    rw [if_neg (show ¬ st.podName ≠ "" from fun hh => hh h)]
    rcases hgp with hgp | hgp <;> subst hgp <;> rfl
  · unfold verifyAccessResourcesBuilt SetAccessResourcesNotCreated
    exact find_set_same' _ _ _ rfl
  · unfold verifyAccessResourcesBuilt SetAccessResourcesCreated
    exact find_set_same' _ _ _ rfl

/-- C7 witness: with no pod found and no pod yet assigned, provisioning
returns the targetPod-not-found error. -/
theorem provisioning_error_handling_witness :
    (CreateAccessResources "req" (Except.ok none) (Except.ok "cmd")
      { podName := "", accessMessage := "" }).error = some "targetPod not found req" :=
  (provisioning_error_handling "req" { podName := "", accessMessage := "" }
    (Except.ok none) (Except.ok "cmd") [] "s" "e").1 rfl (Or.inr rfl)

/-- C8 counterexample: with template maximum 2h and requested duration 5h
the resolved duration is the template maximum, but the recorded
`DurationsValid` reason is "Access requested duration (5h0m0s) larger than
template maximum duration (2h0m0s)": it does not mention clamping — neither
the substring "clamp" nor the vocabulary word "clamped" occurs in it. -/
theorem clamp_reason_counterexample :
    resolvedDuration 18000000000000 1800000000000 7200000000000 = 7200000000000 ∧
    durationReason 18000000000000 1800000000000 7200000000000 =
      "Access requested duration (5h0m0s) larger than template maximum duration (2h0m0s)" ∧
    strContains (durationReason 18000000000000 1800000000000 7200000000000) "clamp" = false ∧
    strContains (durationReason 18000000000000 1800000000000 7200000000000) "clamped"
      = false ∧
    findStatusCondition
      (verifyDuration (Except.ok 18000000000000) (Except.ok 1800000000000)
        (Except.ok 7200000000000) 0 []).1 ConditionType.durationsValid =
      some (mkCond ConditionType.durationsValid ConditionStatus.ctrue
        "Access requested duration (5h0m0s) larger than template maximum duration (2h0m0s)") :=
  ⟨by decide, by decide, by decide, by decide, by decide⟩

/-- C8 (amended): when the requested duration is nonzero and exceeds the
template maximum, the resolved duration equals the template maximum, and the
`DurationsValid=True` reason states that the requested duration is larger
than the template maximum duration; it does not use the literal vocabulary
token "clamped" (see the counterexample theorem for the 5h-vs-2h case). -/
theorem clamp_branch_resolution (d dflt mx uptime : Int) (conds : List Condition)
    (h1 : d ≠ 0) (h2 : mx < d) :
    resolvedDuration d dflt mx = mx ∧
    durationReason d dflt mx = "Access requested duration (" ++ goDurationString d ++
      ") larger than template maximum duration (" ++ goDurationString mx ++ ")" ∧
    findStatusCondition
      (verifyDuration (Except.ok d) (Except.ok dflt) (Except.ok mx) uptime conds).1
      ConditionType.durationsValid =
      some (mkCond ConditionType.durationsValid ConditionStatus.ctrue
        (durationReason d dflt mx)) := by
  refine ⟨?_, ?_, find_durationsValid_verifyDuration d dflt mx uptime conds⟩
  · simp [resolvedDuration, h1, not_le.mpr h2]
  · simp [durationReason, h1, not_le.mpr h2]

/-- C8 (amended) witness: scenario B — default 30m, maximum 2h, requested 5h
resolves to 2h. -/
theorem clamp_branch_resolution_witness :
    resolvedDuration 18000000000000 1800000000000 7200000000000 = 7200000000000 :=
  (clamp_branch_resolution 18000000000000 1800000000000 7200000000000 0 []
    (by decide) (by decide)).1

/-- C9: in the CLI wait loop, every sleep in any trace is exactly one second
and a non-terminal poll emits a progress dot then a one-second sleep before
the next poll (a fixed one-second polling interval); when the refetched
request reports ready, the loop prints the success message and stops
polling; when the wait deadline has elapsed without readiness, it prints one
line per condition (type, status, reason, message) and exits with status 1. -/
theorem waitLoop_behaviour :
    (∀ (obs : List PollObservation) (n : Nat),
      CliEvent.sleepSeconds n ∈ (waitLoop obs).1 → n = 1) ∧
    (∀ (o : PollObservation) (rest : List PollObservation),
      o.getError = none → o.ready = true →
      waitLoop (o :: rest) =
        ([CliEvent.printLine "Success, your access request is ready!"],
          WaitOutcome.success)) ∧
    (∀ (o : PollObservation) (rest : List PollObservation),
      o.getError = none → o.ready = false → o.timedOut = true →
      waitLoop (o :: rest) =
        (CliEvent.printLine "Error - timed out waiting for ExecAccessRequest to be ready" ::
          (o.conditions.map fun c => CliEvent.printLine (condLine c)) ++
            [CliEvent.exitNonZero 1],
          WaitOutcome.timedOut)) ∧
    (∀ (o : PollObservation) (rest : List PollObservation),
      o.getError = none → o.ready = false → o.timedOut = false →
      waitLoop (o :: rest) =
        (CliEvent.printDot :: CliEvent.sleepSeconds 1 :: (waitLoop rest).1,
          (waitLoop rest).2)) := by
  refine ⟨?_, ?_, ?_, ?_⟩
  · intro obs
    induction obs with
    | nil => intro n hn; simp [waitLoop] at hn
    | cons o rest ih =>
      obtain ⟨ge, rd, tm, cs⟩ := o
      intro n hn
      cases ge with
      | some e =>
        simp [waitLoop] at hn
        exact ih n hn
      | none =>
        cases rd with
        | true => simp [waitLoop] at hn
        | false =>
          cases tm with
          | true => simp [waitLoop] at hn
          | false =>
            simp [waitLoop] at hn
            rcases hn with h | h
            · exact h
            · exact ih n h
  · intro o rest hg hr
    obtain ⟨ge, rd, tm, cs⟩ := o
    simp only at hg hr
    subst hg
    subst hr
    rfl
  · intro o rest hg hr ht
    obtain ⟨ge, rd, tm, cs⟩ := o
    simp only at hg hr ht
    subst hg
    subst hr
    subst ht
    rfl
  · intro o rest hg hr ht
    obtain ⟨ge, rd, tm, cs⟩ := o
    simp only at hg hr ht
    subst hg
    subst hr
    subst ht
    rfl

/-- C9 witness: a poll trace whose first refetch succeeds and reports ready
ends immediately with the success message; one that has timed out prints the
request's conditions and exits 1. -/
theorem waitLoop_behaviour_witness :
    waitLoop [{ getError := none, ready := true, timedOut := false, conditions := [] }] =
      ([CliEvent.printLine "Success, your access request is ready!"],
        WaitOutcome.success) ∧
    waitLoop [{ getError := none, ready := false, timedOut := true,
                conditions :=
                  [mkCond ConditionType.resourcesCreated ConditionStatus.cfalse "err"] }] =
      (CliEvent.printLine "Error - timed out waiting for ExecAccessRequest to be ready" ::
        ([mkCond ConditionType.resourcesCreated ConditionStatus.cfalse "err"].map
          fun c => CliEvent.printLine (condLine c)) ++ [CliEvent.exitNonZero 1],
        WaitOutcome.timedOut) :=
  ⟨waitLoop_behaviour.2.1
      { getError := none, ready := true, timedOut := false, conditions := [] } [] rfl rfl,
   waitLoop_behaviour.2.2.1
      { getError := none, ready := false, timedOut := true,
        conditions := [mkCond ConditionType.resourcesCreated ConditionStatus.cfalse "err"] } []
      rfl rfl rfl⟩

end Oz
